import Mathlib

/-!
Shallow embedding of the chunked-upload storage backend
(`storage-backend` Go sources: `services/upload_service.go`-style service in
`src/unnamed/part_001`, `services/merge_service.go`,
`handlers/upload_handler.go`, `models/upload.go`, `config/config.go`).

Machine bytes are modelled as natural numbers, byte strings as `List ℕ`,
Go `int`/`int64` as `ℤ`, maps as association lists, the filesystem as an
association list from (upload id, part number) keys to byte strings, and
the `float64` arithmetic used for `totalParts` as exact rounding of
rationals to 53 significant bits (round to nearest, ties to even).
-/

/-- A byte string (contents of a request body, a part file, ...). -/
abbrev Bytes := List ℕ

/-- Model of `models.UploadStatus` (`models/upload.go`). -/
inductive UploadStatus where
  | initiated
  | receiving
  | uploaded
  | merging
  | ready
  | failed
deriving DecidableEq, Repr

/-- Model of `models.UploadType` (`models/upload.go`). -/
inductive UploadType where
  | video
  | material
deriving DecidableEq, Repr

/-- Model of `models.UploadSession` (`models/upload.go`, revision with `MaterialID`,
as used by the service and handlers).  `PartsReceived` (a `map[int]bool`
holding only `true` entries) is modelled as the list of part numbers
marked `true`, and timestamps as abstract ticks. -/
structure UploadSession where
  uploadID : String
  lessonID : String
  materialID : String
  utype : UploadType
  filename : String
  contentType : String
  expectedSize : ℤ
  receivedBytes : ℤ
  status : UploadStatus
  uploadToken : String
  partsReceived : List ℤ
  totalParts : ℤ
  createdAt : ℕ
  completedAt : Option ℕ
  error : String
  outputPath : String
deriving DecidableEq, Repr

/-- Model of `models.InitUploadRequest`. -/
structure InitUploadRequest where
  lessonID : String
  filename : String
  size : ℤ
  contentType : String
  materialID : String
deriving DecidableEq, Repr

/-- The fields of `config.Config` the upload engine reads. -/
structure Config where
  chunkSize : ℤ
  maxConcurrent : ℤ
  uploadTmpDir : String
  videosDir : String
  materialsDir : String
deriving DecidableEq, Repr

/-- A merge job (`services.MergeJob`): upload id plus the session snapshot
taken by the complete handler. -/
structure MergeJob where
  uploadID : String
  session : UploadSession
deriving DecidableEq, Repr

/-- First-match association lookup (Go map read). -/
def assocFind {α β : Type} [DecidableEq α] : List (α × β) → α → Option β
  | [], _ => none
  | (k, v) :: rest, key => if k = key then some v else assocFind rest key

/-- Overwriting association update (Go map write / file overwrite):
the new binding shadows any previous binding for the same key. -/
def assocSet {α β : Type} [DecidableEq α] (l : List (α × β)) (key : α) (v : β) :
    List (α × β) :=
  (key, v) :: l

/-- In-place update of the entry bound to `key` (mutation through the
`*UploadSession` pointer held in the session map). -/
def assocUpdate {α β : Type} [DecidableEq α] : List (α × β) → α → (β → β) → List (α × β)
  | [], _, _ => []
  | (k, v) :: rest, key, f =>
      if k = key then (k, f v) :: assocUpdate rest key f
      else (k, v) :: assocUpdate rest key f

/-- The mutable state of `services.UploadService` together with the parts
of the world it drives: the staging filesystem (`tmp/<id>/parts/part-N`
files keyed by upload id and part number), the set of staging directories
created at init, the published output files, and the merge queue. -/
structure ServiceState where
  sessions : List (String × UploadSession)
  activeConcurrent : ℤ
  disk : List ((String × ℤ) × Bytes)
  stagingDirs : List String
  published : List (String × Bytes)
  mergeQueue : List MergeJob
deriving DecidableEq, Repr

/-- Read a part file from the staging tree. -/
def diskGet (disk : List ((String × ℤ) × Bytes)) (key : String × ℤ) : Option Bytes :=
  assocFind disk key

/-- Model of `UploadService.CanAcceptUpload`. -/
def CanAcceptUpload (cfg : Config) (st : ServiceState) : Bool :=
  st.activeConcurrent < cfg.maxConcurrent

/-- Model of `UploadService.IncrementActive`. -/
def IncrementActive (st : ServiceState) : ServiceState :=
  { st with activeConcurrent := st.activeConcurrent + 1 }

/-- Model of `UploadService.DecrementActive` (guarded against going negative). -/
def DecrementActive (st : ServiceState) : ServiceState :=
  if st.activeConcurrent > 0 then
    { st with activeConcurrent := st.activeConcurrent - 1 }
  else st

/-- Model of `UploadService.GetSession`: look the session up and return a copy built
by listing every field except `PartsReceived` (which is left at its zero
value, the empty map). -/
def GetSession (st : ServiceState) (uploadID : String) : Except String UploadSession :=
  match assocFind st.sessions uploadID with
  | none => .error "upload session not found"
  | some session =>
      .ok { uploadID := session.uploadID
            lessonID := session.lessonID
            materialID := session.materialID
            utype := session.utype
            filename := session.filename
            contentType := session.contentType
            expectedSize := session.expectedSize
            receivedBytes := session.receivedBytes
            status := session.status
            uploadToken := session.uploadToken
            partsReceived := []
            totalParts := session.totalParts
            createdAt := session.createdAt
            completedAt := session.completedAt
            error := session.error
            outputPath := session.outputPath }

/-- Model of `UploadService.ValidateToken`. -/
def ValidateToken (st : ServiceState) (uploadID token : String) : Except String Unit :=
  match GetSession st uploadID with
  | .error e => .error e
  | .ok session =>
      if session.uploadToken ≠ token then .error "invalid upload token" else .ok ()

/-- The part numbers visited by the Go loop `for i := 1; i <= totalParts; i++`. -/
def partIndices (totalParts : ℤ) : List ℤ :=
  (List.range totalParts.toNat).map fun (k : ℕ) => (k : ℤ) + 1

/-- Model of `UploadService.SavePart`.  The part file is written (created or
truncated) through the writer pool or the synchronous fallback *before*
the session is looked up and the duplicate check runs; only then is the
in-memory record updated, and only when the part number is new. -/
def SavePart (st : ServiceState) (uploadID : String) (partNum : ℤ) (data : Bytes) :
    ServiceState × Except String Unit :=
  let st₁ := { st with disk := assocSet st.disk (uploadID, partNum) data }
  match assocFind st₁.sessions uploadID with
  | none => (st₁, .error "upload session not found")
  | some session =>
      if partNum ∈ session.partsReceived then (st₁, .ok ())
      else
        let session' :=
          { session with
            partsReceived := session.partsReceived ++ [partNum]
            receivedBytes := session.receivedBytes + (data.length : ℤ)
            status := if session.status = .initiated then .receiving else session.status }
        ({ st₁ with sessions := assocUpdate st₁.sessions uploadID fun _ => session' },
         .ok ())

/-- The first part index in `1..totalParts` missing from the received set
(the index at which the verification loop in `MarkComplete` stops). -/
def firstMissing (partsReceived : List ℤ) (totalParts : ℤ) : Option ℤ :=
  (partIndices totalParts).find? fun i => decide (i ∉ partsReceived)

/-- Model of `UploadService.MarkComplete`: reject (without mutating anything) at the
first missing part, otherwise mark the session uploaded and release one
admission slot. -/
def MarkComplete (st : ServiceState) (uploadID : String) :
    ServiceState × Except String Unit :=
  match assocFind st.sessions uploadID with
  | none => (st, .error "upload session not found")
  | some session =>
      match firstMissing session.partsReceived session.totalParts with
      | some i => (st, .error s!"missing part {i}")
      | none =>
          let st₁ :=
            { st with
              sessions := assocUpdate st.sessions uploadID fun s =>
                { s with status := .uploaded } }
          (DecrementActive st₁, .ok ())

/-- Model of `UploadService.UpdateStatus`: unconditionally store the new status,
record the error message when non-empty, and stamp `CompletedAt` on entry
to `ready` or `failed`. -/
def UpdateStatus (st : ServiceState) (uploadID : String) (status : UploadStatus)
    (errorMsg : String) (now : ℕ) : ServiceState :=
  match assocFind st.sessions uploadID with
  | none => st
  | some _ =>
      { st with
        sessions := assocUpdate st.sessions uploadID fun s =>
          let s₁ := { s with status := status }
          let s₂ := if errorMsg ≠ "" then { s₁ with error := errorMsg } else s₁
          if status = .ready ∨ status = .failed then
            { s₂ with completedAt := some now }
          else s₂ }

/-- Model of `UploadService.SetOutputPath`. -/
def SetOutputPath (st : ServiceState) (uploadID path : String) : ServiceState :=
  match assocFind st.sessions uploadID with
  | none => st
  | some _ =>
      { st with
        sessions := assocUpdate st.sessions uploadID fun s =>
          { s with outputPath := path } }

/-! ### `float64` arithmetic (Go `math.Ceil(float64(size) / float64(chunkSize))`)

IEEE-754 binary64 values in the range this program produces are exactly
the rationals with at most 53 significant bits; conversions and division
round to nearest, ties to even.  Exponent range (overflow / subnormals)
is irrelevant for 64-bit byte counts and is not modelled. -/

/-- Round a rational to the nearest integer, ties to the even neighbour. -/
def roundEven (x : ℚ) : ℤ :=
  let f := ⌊x⌋
  let r := x - (f : ℚ)
  if r < 1 / 2 then f
  else if 1 / 2 < r then f + 1
  else if f % 2 = 0 then f else f + 1

/-- Round a positive rational to 53 significant bits, ties to even. -/
def rnd53pos (q : ℚ) : ℚ :=
  let e := Int.log 2 q
  (roundEven (q * 2 ^ (52 - e)) : ℚ) * 2 ^ (e - 52)

/-- The binary64 value nearest to a rational (sign-symmetric). -/
def float64 (q : ℚ) : ℚ :=
  if q < 0 then -rnd53pos (-q) else if q = 0 then 0 else rnd53pos q

/-- Model of `int(math.Ceil(float64(size) / float64(chunkSize)))` as computed by
`CreateSession`: both operands pass through binary64, the quotient is
rounded to binary64, `math.Ceil` is exact, and the `int` conversion of the
resulting integer-valued float is exact. -/
def totalPartsGo (size chunkSize : ℤ) : ℤ :=
  ⌈float64 (float64 (size : ℚ) / float64 (chunkSize : ℚ))⌉

/-- Model of `UploadService.CreateSession`: admission check first; on rejection
nothing is touched.  On acceptance the staging `parts/` directory is
created, the record is inserted in status `initiated`, and the admission
counter is incremented.  The fresh uuid and token are parameters. -/
def CreateSession (cfg : Config) (st : ServiceState) (req : InitUploadRequest)
    (utype : UploadType) (freshID freshToken : String) (now : ℕ) :
    ServiceState × Except String UploadSession :=
  if !CanAcceptUpload cfg st then
    (st, .error "too many concurrent uploads, please retry later")
  else
    let totalParts := totalPartsGo req.size cfg.chunkSize
    let session : UploadSession :=
      { uploadID := freshID
        lessonID := req.lessonID
        materialID := req.materialID
        utype := utype
        filename := req.filename
        contentType := req.contentType
        expectedSize := req.size
        receivedBytes := 0
        status := .initiated
        uploadToken := freshToken
        partsReceived := []
        totalParts := totalParts
        createdAt := now
        completedAt := none
        error := ""
        outputPath := "" }
    let st₁ := { st with stagingDirs := freshID :: st.stagingDirs }
    let st₂ := { st₁ with sessions := assocSet st₁.sessions freshID session }
    (IncrementActive st₂, .ok session)

/-! ### SHA-1 (`crypto/sha1`), modelled bit-exactly over byte lists. -/

/-- Left-rotation of a 32-bit word. -/
def rotl (k n : ℕ) : ℕ :=
  (n * 2 ^ k) % 4294967296 ||| n / 2 ^ (32 - k)

/-- The SHA-1 round function for round `t`. -/
def sha1F (t b c d : ℕ) : ℕ :=
  if t < 20 then (b &&& c) ||| ((b ^^^ 4294967295) &&& d)
  else if t < 40 then b ^^^ c ^^^ d
  else if t < 60 then (b &&& c) ||| (b &&& d) ||| (c &&& d)
  else b ^^^ c ^^^ d

/-- The SHA-1 round constant for round `t`. -/
def sha1K (t : ℕ) : ℕ :=
  if t < 20 then 0x5A827999
  else if t < 40 then 0x6ED9EBA1
  else if t < 60 then 0x8F1BBCDC
  else 0xCA62C1D6

/-- Big-endian encoding of `n` into `k` bytes. -/
def toBytesBE : ℕ → ℕ → Bytes
  | 0, _ => []
  | k + 1, n => toBytesBE k (n / 256) ++ [n % 256]

/-- Pack bytes into big-endian 32-bit words. -/
def wordsOfBytes : Bytes → List ℕ
  | b0 :: b1 :: b2 :: b3 :: rest =>
      (b0 * 16777216 + b1 * 65536 + b2 * 256 + b3) :: wordsOfBytes rest
  | _ => []

/-- One step of the SHA-1 message-schedule extension. -/
def extendStep (ws : List ℕ) : List ℕ :=
  ws ++ [rotl 1 ((ws.getD (ws.length - 3) 0) ^^^ (ws.getD (ws.length - 8) 0) ^^^
                 (ws.getD (ws.length - 14) 0) ^^^ (ws.getD (ws.length - 16) 0))]

/-- Iterate the message-schedule extension (64 times: 16 → 80 words). -/
def extendWords : ℕ → List ℕ → List ℕ
  | 0, ws => ws
  | n + 1, ws => extendWords n (extendStep ws)

/-- One SHA-1 compression round on the five-word working state. -/
def sha1Round (st : ℕ × ℕ × ℕ × ℕ × ℕ) (t w : ℕ) : ℕ × ℕ × ℕ × ℕ × ℕ :=
  let (a, b, c, d, e) := st
  let temp := (rotl 5 a + sha1F t b c d + e + sha1K t + w) % 4294967296
  (temp, a, rotl 30 b, c, d)

/-- Compress one 64-byte block into the running digest state. -/
def processBlock (h : ℕ × ℕ × ℕ × ℕ × ℕ) (block : Bytes) : ℕ × ℕ × ℕ × ℕ × ℕ :=
  let ws := extendWords 64 (wordsOfBytes block)
  let (h0, h1, h2, h3, h4) := h
  let (a, b, c, d, e) := ws.enum.foldl (fun s p => sha1Round s p.1 p.2) h
  ((h0 + a) % 4294967296, (h1 + b) % 4294967296, (h2 + c) % 4294967296,
   (h3 + d) % 4294967296, (h4 + e) % 4294967296)

/-- Split a byte list into 64-byte blocks. -/
def toBlocks (l : Bytes) : List Bytes :=
  if h : l = [] then [] else l.take 64 :: toBlocks (l.drop 64)
termination_by l.length
decreasing_by
  simp only [List.length_drop]
  have := List.length_pos.mpr h
  omega

/-- SHA-1 padding: a 0x80 byte, zeros to 56 mod 64, and the bit length. -/
def padMessage (msg : Bytes) : Bytes :=
  let padLen := (64 + 56 - (msg.length + 1) % 64) % 64
  msg ++ [128] ++ List.replicate padLen 0 ++ toBytesBE 8 (8 * msg.length)

/-- The SHA-1 initial digest state. -/
def sha1Init : ℕ × ℕ × ℕ × ℕ × ℕ :=
  (0x67452301, 0xEFCDAB89, 0x98BADCFE, 0x10325476, 0xC3D2E1F0)

/-- The 20-byte SHA-1 digest of a byte string. -/
def sha1 (msg : Bytes) : Bytes :=
  let (h0, h1, h2, h3, h4) := (toBlocks (padMessage msg)).foldl processBlock sha1Init
  toBytesBE 4 h0 ++ toBytesBE 4 h1 ++ toBytesBE 4 h2 ++ toBytesBE 4 h3 ++ toBytesBE 4 h4

/-- Lower-case hex digit. -/
def hexDigit (n : ℕ) : Char :=
  if n < 10 then Char.ofNat (48 + n) else Char.ofNat (87 + n)

/-- Model of `hex.EncodeToString`. -/
def hexEncode (bs : Bytes) : String :=
  String.mk ((bs.map fun b => [hexDigit (b / 16 % 16), hexDigit (b % 16)]).flatten)

/-! ### Merge service (`services/merge_service.go`) -/

/-- Model of `filepath.Join` restricted to clean relative components. -/
def joinPath (a b : String) : String := a ++ "/" ++ b

/-- Result of a successful `mergeParts` run: the final published path, the
bytes written there, the hex SHA-1 reported by the hash accumulator, and
the material id used (empty for videos). -/
structure MergeResult where
  finalPath : String
  fileBytes : Bytes
  hashHex : String
  materialID : String
deriving DecidableEq, Repr

/-- The merge loop (`for i := 1; i <= session.TotalParts; i++`): open each
part in index order and stream it through `io.MultiWriter(outputFile,
hasher)`.  The accumulator carries (output-file bytes, hasher-absorbed
bytes). -/
def mergeLoop (disk : List ((String × ℤ) × Bytes)) (uploadID : String) :
    List ℤ → Bytes × Bytes → Except String (Bytes × Bytes)
  | [], acc => .ok acc
  | i :: rest, acc =>
      match diskGet disk (uploadID, i) with
      | none => .error s!"failed to open part {i}"
      | some b => mergeLoop disk uploadID rest (acc.1 ++ b, acc.2 ++ b)

/-- Model of `MergeService.mergeParts`: merge the staged parts, compute the hash,
pick the final directory (videos use `videos/<lesson>/video.mp4`;
materials always use a freshly generated uuid as the directory name), and
publish the merged bytes at the final path. -/
def mergeParts (cfg : Config) (disk : List ((String × ℤ) × Bytes)) (uploadID : String)
    (session : UploadSession) (freshMaterialID : String) : Except String MergeResult :=
  match mergeLoop disk uploadID (partIndices session.totalParts) ([], []) with
  | .error e => .error e
  | .ok acc =>
      let hashStr := hexEncode (sha1 acc.2)
      if session.utype = .video then
        .ok { finalPath := joinPath (joinPath cfg.videosDir session.lessonID) "video.mp4"
              fileBytes := acc.1
              hashHex := hashStr
              materialID := "" }
      else
        .ok { finalPath := joinPath (joinPath (joinPath cfg.materialsDir session.lessonID)
                              freshMaterialID) session.filename
              fileBytes := acc.1
              hashHex := hashStr
              materialID := freshMaterialID }

/-- Model of `MergeService.processMerge`: set `merging` unconditionally, run the
merge, and drive the session to `failed` (keeping staged parts) or to
`ready` (recording the output path, publishing the bytes, and cleaning up
the staged parts).  No check of the session's current status is made. -/
def processMerge (cfg : Config) (st : ServiceState) (job : MergeJob)
    (freshMaterialID : String) (now : ℕ) : ServiceState :=
  let st₁ := UpdateStatus st job.uploadID .merging "" now
  match mergeParts cfg st₁.disk job.uploadID job.session freshMaterialID with
  | .error e => UpdateStatus st₁ job.uploadID .failed e now
  | .ok res =>
      let st₂ := { st₁ with published := assocSet st₁.published res.finalPath res.fileBytes }
      let st₃ := SetOutputPath st₂ job.uploadID res.finalPath
      let st₄ := UpdateStatus st₃ job.uploadID .ready "" now
      { st₄ with
        disk := st₄.disk.filter fun p => decide (p.1.1 ≠ job.uploadID)
        stagingDirs := st₄.stagingDirs.filter fun d => decide (d ≠ job.uploadID) }

/-! ### HTTP handlers (`handlers/upload_handler.go`) -/

/-- The observable pieces of a handler reply: status code, the
`Retry-After` header when set, and the JSON `error` field when present. -/
structure HttpResponse where
  status : ℕ
  retryAfterHeader : Option String
  errorField : Option String
deriving DecidableEq, Repr

/-- Model of `UploadHandler.UploadPart` (PUT `/uploads/:upload_id/parts/:part_num`):
reject non-positive part numbers, require and validate the token, then
save the part.  No upper bound on the part number is checked. -/
def UploadPart (st : ServiceState) (uploadID : String) (partNum : ℤ)
    (token : String) (body : Bytes) : ServiceState × HttpResponse :=
  if partNum < 1 then (st, ⟨400, none, some "invalid part number"⟩)
  else if token = "" then (st, ⟨401, none, some "missing upload token"⟩)
  else
    match ValidateToken st uploadID token with
    | .error _ => (st, ⟨401, none, some "invalid upload token"⟩)
    | .ok _ =>
        match SavePart st uploadID partNum body with
        | (st', .error _) => (st', ⟨500, none, some "failed to save part"⟩)
        | (st', .ok _) => (st', ⟨204, none, none⟩)

/-- Model of `UploadHandler.CompleteUpload` (POST `/uploads/:upload_id/complete`). -/
def CompleteUpload (st : ServiceState) (uploadID token : String) :
    ServiceState × HttpResponse :=
  if token = "" then (st, ⟨401, none, some "missing upload token"⟩)
  else
    match ValidateToken st uploadID token with
    | .error _ => (st, ⟨401, none, some "invalid upload token"⟩)
    | .ok _ =>
        match MarkComplete st uploadID with
        | (st', .error e) => (st', ⟨400, none, some e⟩)
        | (st', .ok _) =>
            match GetSession st' uploadID with
            | .error _ => (st', ⟨500, none, some "failed to get session"⟩)
            | .ok snapshot =>
                ({ st' with mergeQueue := st'.mergeQueue ++ [⟨uploadID, snapshot⟩] },
                 ⟨202, none, none⟩)

/-- Model of `UploadHandler.InitVideoUpload` (POST `/uploads/videos`): default the
content type, accept only `video/mp4`, create the session, and map the
admission error to 429 with `Retry-After: 60`. -/
def InitVideoUpload (cfg : Config) (st : ServiceState) (req : InitUploadRequest)
    (freshID freshToken : String) (now : ℕ) : ServiceState × HttpResponse :=
  let req₁ := if req.contentType = "" then { req with contentType := "video/mp4" } else req
  if req₁.contentType ≠ "video/mp4" then
    (st, ⟨400, none, some "only video/mp4 is supported"⟩)
  else
    match CreateSession cfg st req₁ .video freshID freshToken now with
    | (st', .error e) =>
        if e = "too many concurrent uploads, please retry later" then
          (st', ⟨429, some "60", some e⟩)
        else (st', ⟨500, none, some e⟩)
    | (st', .ok _) => (st', ⟨200, none, none⟩)

/-- Model of `UploadHandler.InitFileUpload` (POST `/uploads/files`): require a
client `material_id`, default the content type, accept any content type,
create the session, and map the admission error to 429. -/
def InitFileUpload (cfg : Config) (st : ServiceState) (req : InitUploadRequest)
    (freshID freshToken : String) (now : ℕ) : ServiceState × HttpResponse :=
  if req.materialID = "" then
    (st, ⟨400, none, some "material_id is required for file uploads"⟩)
  else
    let req₁ :=
      if req.contentType = "" then { req with contentType := "application/octet-stream" }
      else req
    match CreateSession cfg st req₁ .material freshID freshToken now with
    | (st', .error e) =>
        if e = "too many concurrent uploads, please retry later" then
          (st', ⟨429, some "60", some e⟩)
        else (st', ⟨500, none, some e⟩)
    | (st', .ok _) => (st', ⟨200, none, none⟩)

/-! ### Derived run functions -/

/-- The concatenation of the contents of parts `1..n` in index order. -/
def concatParts (n : ℤ) (parts : ℤ → Bytes) : Bytes :=
  ((partIndices n).map parts).flatten

/-- Run a sequence of `SavePart` calls (one per arriving part) against a
state, keeping only the state. -/
def diskAfterArrivals (st : ServiceState) (uploadID : String)
    (arrivals : List (ℤ × Bytes)) : ServiceState :=
  arrivals.foldl (fun s p => (SavePart s uploadID p.1 p.2).1) st

/-- One externally triggered operation of the service: an init request, a
part upload, a complete request, or a merge-worker run. -/
inductive HandlerOp where
  | initVideo (req : InitUploadRequest) (freshID freshToken : String) (now : ℕ)
  | initFile (req : InitUploadRequest) (freshID freshToken : String) (now : ℕ)
  | uploadPart (uploadID : String) (partNum : ℤ) (token : String) (body : Bytes)
  | complete (uploadID token : String)
  | merge (job : MergeJob) (freshMaterialID : String) (now : ℕ)

/-- Apply one operation to the state. -/
def handlerStep (cfg : Config) (st : ServiceState) : HandlerOp → ServiceState
  | .initVideo req freshID freshToken now =>
      (InitVideoUpload cfg st req freshID freshToken now).1
  | .initFile req freshID freshToken now =>
      (InitFileUpload cfg st req freshID freshToken now).1
  | .uploadPart uploadID partNum token body =>
      (UploadPart st uploadID partNum token body).1
  | .complete uploadID token => (CompleteUpload st uploadID token).1
  | .merge job freshMaterialID now => processMerge cfg st job freshMaterialID now

/-- Apply a sequence of operations to the state. -/
def handlerRun (cfg : Config) (st : ServiceState) (ops : List HandlerOp) : ServiceState :=
  ops.foldl (handlerStep cfg) st

/-- Every part number recorded in any session is at least 1. -/
def partsLowerBoundInv (st : ServiceState) : Prop :=
  ∀ p ∈ st.sessions, ∀ i ∈ p.2.partsReceived, 1 ≤ i

/-! ### Sample data used for concrete counterexamples and witnesses -/

/-- A configuration with the default 16 MiB chunk size. -/
def sampleCfg : Config :=
  { chunkSize := 16777216
    maxConcurrent := 50
    uploadTmpDir := "tmp"
    videosDir := "videos"
    materialsDir := "materials" }

/-- A material session whose single part has been received. -/
def sampleSession : UploadSession :=
  { uploadID := "u1"
    lessonID := "lesson1"
    materialID := "client-mat"
    utype := .material
    filename := "doc.pdf"
    contentType := "application/pdf"
    expectedSize := 2
    receivedBytes := 2
    status := .receiving
    uploadToken := "secret-token"
    partsReceived := [1]
    totalParts := 1
    createdAt := 0
    completedAt := none
    error := ""
    outputPath := "" }

/-- A service state holding `sampleSession` with its part on disk. -/
def sampleState : ServiceState :=
  { sessions := [("u1", sampleSession)]
    activeConcurrent := 1
    disk := [(("u1", 1), [10, 20])]
    stagingDirs := ["u1"]
    published := []
    mergeQueue := [] }

/-- Variant of `sampleSession` already in the terminal `ready` state. -/
def readySession : UploadSession :=
  { sampleSession with status := .ready, completedAt := some 3 }

/-- Variant of `sampleState` with its session in the terminal `ready` state. -/
def readyState : ServiceState :=
  { sampleState with sessions := [("u1", readySession)] }

/-- Variant of `sampleSession` still missing part 2 of 2. -/
def missSession : UploadSession :=
  { sampleSession with totalParts := 2 }

/-- Variant of `sampleState` with the session missing part 2 of 2. -/
def missState : ServiceState :=
  { sampleState with sessions := [("u1", missSession)] }

/-- A merge job whose snapshot claims two parts while only one is staged,
for a session already terminal: its merge fails on part 2. -/
def failJob : MergeJob :=
  ⟨"u1", { readySession with totalParts := 2 }⟩

/-- A configuration whose admission ceiling is already reached by
`sampleState` (`activeConcurrent = 1`). -/
def fullCfg : Config :=
  { sampleCfg with maxConcurrent := 1 }

/-- A well-formed video init request. -/
def sampleVideoReq : InitUploadRequest :=
  { lessonID := "lesson1"
    filename := "movie.mp4"
    size := 50331648
    contentType := ""
    materialID := "" }

/-- The merge result produced for `sampleSession` from `sampleState`'s
staged parts with fresh material id `"fresh-uuid"`. -/
def c8Res : MergeResult :=
  ((mergeParts sampleCfg sampleState.disk "u1" sampleSession "fresh-uuid").toOption).getD
    ⟨"", [], "", ""⟩

/-! ### Association-list and state helper lemmas -/

theorem assocFind_update_self {α β : Type} [DecidableEq α] (l : List (α × β)) (key : α)
    (f : β → β) : assocFind (assocUpdate l key f) key = (assocFind l key).map f := by
  induction l with
  | nil => rfl
  | cons p rest ih =>
      obtain ⟨k, v⟩ := p
      by_cases h : k = key
      · subst h
        simp [assocFind, assocUpdate]
      · simp [assocFind, assocUpdate, h, ih]

theorem assocFind_update_ne {α β : Type} [DecidableEq α] (l : List (α × β)) (key key' : α)
    (f : β → β) (h : key ≠ key') :
    assocFind (assocUpdate l key f) key' = assocFind l key' := by
  induction l with
  | nil => rfl
  | cons p rest ih =>
      obtain ⟨k, v⟩ := p
      by_cases hk : k = key
      · subst hk
        simp [assocFind, assocUpdate, h, ih]
      · by_cases hk' : k = key'
        · subst hk'
          simp [assocFind, assocUpdate, hk, ih]
        · simp [assocFind, assocUpdate, hk, hk', ih]

theorem decrementActive_sessions (st : ServiceState) :
    (DecrementActive st).sessions = st.sessions := by
  unfold DecrementActive
  split <;> rfl

theorem decrementActive_disk (st : ServiceState) :
    (DecrementActive st).disk = st.disk := by
  unfold DecrementActive
  split <;> rfl

theorem decrementActive_active (st : ServiceState) :
    (DecrementActive st).activeConcurrent =
      if st.activeConcurrent > 0 then st.activeConcurrent - 1
      else st.activeConcurrent := by
  unfold DecrementActive
  split <;> simp_all

/-- C3: uploading an already-received part again returns success and leaves
the in-memory session record (in particular `received_bytes` and
`parts_received`) exactly as it was. -/
theorem SavePart_duplicate_idempotent (st : ServiceState) (uploadID : String)
    (partNum : ℤ) (data : Bytes) (s : UploadSession)
    (hs : assocFind st.sessions uploadID = some s)
    (hdup : partNum ∈ s.partsReceived) :
    (SavePart st uploadID partNum data).2 = .ok () ∧
    assocFind (SavePart st uploadID partNum data).1.sessions uploadID = some s := by
  constructor <;> simp [SavePart, hs, hdup]

/-- Witness for C3 at a concrete state: re-uploading part 1 of
`sampleSession` succeeds and the session record is untouched. -/
theorem SavePart_duplicate_idempotent_witness :
    (SavePart sampleState "u1" 1 [9, 9, 9]).2 = .ok () ∧
    assocFind (SavePart sampleState "u1" 1 [9, 9, 9]).1.sessions "u1" = some sampleSession :=
  SavePart_duplicate_idempotent sampleState "u1" 1 [9, 9, 9] sampleSession rfl (by decide)

/-- C10: a duplicate `SavePart` still rewrites the part file on disk with
the newly supplied bytes (the write happens before the duplicate check),
while the in-memory session record stays unchanged; the merge step reads
parts through `diskGet`, so it will later see the new bytes. -/
theorem SavePart_duplicate_rewrites_disk (st : ServiceState) (uploadID : String)
    (partNum : ℤ) (data : Bytes) (s : UploadSession)
    (hs : assocFind st.sessions uploadID = some s)
    (hdup : partNum ∈ s.partsReceived) :
    diskGet (SavePart st uploadID partNum data).1.disk (uploadID, partNum) = some data ∧
    (SavePart st uploadID partNum data).1.sessions = st.sessions ∧
    (SavePart st uploadID partNum data).2 = .ok () := by
  refine ⟨?_, ?_, ?_⟩ <;> simp [SavePart, hs, hdup, diskGet, assocSet, assocFind]

/-- Witness for C10: re-uploading part 1 with different bytes `[9, 9, 9]`
overwrites the staged `[10, 20]` on disk while the session is unchanged. -/
theorem SavePart_duplicate_rewrites_disk_witness :
    diskGet (SavePart sampleState "u1" 1 [9, 9, 9]).1.disk ("u1", 1) = some [9, 9, 9] ∧
    (SavePart sampleState "u1" 1 [9, 9, 9]).1.sessions = sampleState.sessions ∧
    (SavePart sampleState "u1" 1 [9, 9, 9]).2 = .ok () :=
  SavePart_duplicate_rewrites_disk sampleState "u1" 1 [9, 9, 9] sampleSession rfl (by decide)

/-- C7 counterexample: the snapshot returned by `GetSession` carries the
original (non-empty) upload token, so the claim that the copy excludes
`upload_token` is false on this concrete session. -/
theorem GetSession_returns_token_cex :
    ((GetSession sampleState "u1").toOption.map fun s => s.uploadToken) =
      some "secret-token" ∧
    sampleSession.uploadToken = "secret-token" ∧ ("secret-token" : String) ≠ "" :=
  ⟨rfl, rfl, by decide⟩

/-- C7 (amended): the snapshot returned by `GetSession` is a copy of the
session with `parts_received` emptied and every other field — including
`upload_token` — copied verbatim. -/
theorem GetSession_copy (st : ServiceState) (uploadID : String) (s : UploadSession)
    (hs : assocFind st.sessions uploadID = some s) :
    GetSession st uploadID = .ok { s with partsReceived := [] } := by
  simp [GetSession, hs]

/-- Witness for the amended C7 at a concrete state. -/
theorem GetSession_copy_witness :
    GetSession sampleState "u1" = .ok { sampleSession with partsReceived := [] } :=
  GetSession_copy sampleState "u1" sampleSession rfl

theorem updateStatus_disk (st : ServiceState) (uploadID : String) (status : UploadStatus)
    (msg : String) (now : ℕ) :
    (UpdateStatus st uploadID status msg now).disk = st.disk := by
  cases h : assocFind st.sessions uploadID <;> simp [UpdateStatus, h]

theorem updateStatus_find_status (st : ServiceState) (uploadID : String)
    (status : UploadStatus) (msg : String) (now : ℕ) (s : UploadSession)
    (hs : assocFind st.sessions uploadID = some s) :
    ∃ s', assocFind (UpdateStatus st uploadID status msg now).sessions uploadID = some s' ∧
      s'.status = status := by
  unfold UpdateStatus
  rw [hs]
  dsimp only
  rw [assocFind_update_self, hs]
  refine ⟨_, rfl, ?_⟩
  dsimp only
  split_ifs <;> rfl

theorem updateStatus_map_status (st : ServiceState) (uploadID : String)
    (status : UploadStatus) (msg : String) (now : ℕ) (s : UploadSession)
    (hs : assocFind st.sessions uploadID = some s) :
    ((assocFind (UpdateStatus st uploadID status msg now).sessions uploadID).map
      fun x => x.status) = some status := by
  obtain ⟨s', h1, h2⟩ := updateStatus_find_status st uploadID status msg now s hs
  rw [h1, Option.map_some', h2]

theorem setOutputPath_find (st : ServiceState) (uploadID path : String) (s : UploadSession)
    (hs : assocFind st.sessions uploadID = some s) :
    assocFind (SetOutputPath st uploadID path).sessions uploadID =
      some { s with outputPath := path } := by
  unfold SetOutputPath
  rw [hs]
  dsimp only
  rw [assocFind_update_self, hs]
  rfl

/-- C5 counterexample: a session in the terminal `ready` state is moved to
`failed` by `UpdateStatus`, so terminal statuses are not immutable. -/
theorem UpdateStatus_terminal_cex :
    ((assocFind readyState.sessions "u1").map fun s => s.status) = some .ready ∧
    ((assocFind (UpdateStatus readyState "u1" .failed "boom" 7).sessions "u1").map
      fun s => s.status) = some .failed :=
  ⟨rfl, rfl⟩

/-- C5 (amended): `UpdateStatus` applies any requested transition
unconditionally — including out of the terminal states — and `processMerge`
processes a job without inspecting the session's current status: whatever
the stored status, the session ends in `failed` when the merge fails and in
`ready` when it succeeds. -/
theorem terminal_not_protected :
    (∀ (st : ServiceState) (uploadID : String) (status : UploadStatus) (msg : String)
        (now : ℕ) (s : UploadSession), assocFind st.sessions uploadID = some s →
        ((assocFind (UpdateStatus st uploadID status msg now).sessions uploadID).map
          fun x => x.status) = some status)
    ∧ (∀ (cfg : Config) (st : ServiceState) (job : MergeJob) (fresh : String) (now : ℕ)
        (s : UploadSession) (e : String), assocFind st.sessions job.uploadID = some s →
        mergeParts cfg st.disk job.uploadID job.session fresh = .error e →
        ((assocFind (processMerge cfg st job fresh now).sessions job.uploadID).map
          fun x => x.status) = some .failed)
    ∧ (∀ (cfg : Config) (st : ServiceState) (job : MergeJob) (fresh : String) (now : ℕ)
        (s : UploadSession) (res : MergeResult), assocFind st.sessions job.uploadID = some s →
        mergeParts cfg st.disk job.uploadID job.session fresh = .ok res →
        ((assocFind (processMerge cfg st job fresh now).sessions job.uploadID).map
          fun x => x.status) = some .ready) := by
  refine ⟨?_, ?_, ?_⟩
  · intro st uploadID status msg now s hs
    exact updateStatus_map_status st uploadID status msg now s hs
  · intro cfg st job fresh now s e hs hme
    unfold processMerge
    dsimp only
    have hme' : mergeParts cfg (UpdateStatus st job.uploadID .merging "" now).disk
        job.uploadID job.session fresh = .error e := by
      rw [updateStatus_disk]
      exact hme
    rw [hme']
    obtain ⟨s₁, h1, _⟩ := updateStatus_find_status st job.uploadID .merging "" now s hs
    exact updateStatus_map_status _ job.uploadID .failed e now s₁ h1
  · intro cfg st job fresh now s res hs hok
    unfold processMerge
    dsimp only
    have hok' : mergeParts cfg (UpdateStatus st job.uploadID .merging "" now).disk
        job.uploadID job.session fresh = .ok res := by
      rw [updateStatus_disk]
      exact hok
    rw [hok']
    dsimp only
    obtain ⟨s₁, h1, _⟩ := updateStatus_find_status st job.uploadID .merging "" now s hs
    exact updateStatus_map_status _ job.uploadID .ready "" now _
      (setOutputPath_find _ job.uploadID res.finalPath s₁ h1)

/-- Witness for the amended C5: the terminal `ready` session of
`readyState` is driven to `uploaded` by `UpdateStatus` and to `failed` by a
merge job whose part 2 is missing. -/
theorem terminal_not_protected_witness :
    ((assocFind (UpdateStatus readyState "u1" .uploaded "" 9).sessions "u1").map
      fun x => x.status) = some .uploaded ∧
    ((assocFind (processMerge sampleCfg readyState failJob "f1" 9).sessions "u1").map
      fun x => x.status) = some .failed :=
  ⟨terminal_not_protected.1 readyState "u1" .uploaded "" 9 readySession rfl,
   terminal_not_protected.2.1 sampleCfg readyState failJob "f1" 9 readySession
     "failed to open part 2" rfl rfl⟩

/-- C8 counterexample: the client supplied `material_id = "client-mat"` at
init, yet the merge publishes under the freshly generated id, not the
client one, so the published path is not
`materials/<lesson-id>/<client material-id>/<filename>`. -/
theorem mergeParts_ignores_client_materialID_cex :
    ((mergeParts sampleCfg sampleState.disk "u1" sampleSession "fresh-uuid").toOption.map
      fun r => r.finalPath) = some "materials/lesson1/fresh-uuid/doc.pdf" ∧
    sampleSession.materialID = "client-mat" ∧
    ("materials/lesson1/fresh-uuid/doc.pdf" : String) ≠
      "materials/lesson1/client-mat/doc.pdf" :=
  ⟨rfl, rfl, by decide⟩

/-- C8 (amended): for every material upload the published path is
`materials/<lesson-id>/<fresh-id>/<filename>` where `<fresh-id>` is the
identifier freshly generated during the merge — the client-supplied
`material_id` stored on the session is never used for the path. -/
theorem mergeParts_material_fresh_path (cfg : Config)
    (disk : List ((String × ℤ) × Bytes)) (uploadID : String) (session : UploadSession)
    (fresh : String) (res : MergeResult)
    (hm : session.utype = .material)
    (hok : mergeParts cfg disk uploadID session fresh = .ok res) :
    res.finalPath =
      joinPath (joinPath (joinPath cfg.materialsDir session.lessonID) fresh)
        session.filename ∧
    res.materialID = fresh := by
  unfold mergeParts at hok
  cases hml : mergeLoop disk uploadID (partIndices session.totalParts) ([], []) with
  | error e =>
      rw [hml] at hok
      cases hok
  | ok acc =>
      rw [hml, hm] at hok
      simp only [reduceCtorEq, reduceIte] at hok
      cases hok
      exact ⟨rfl, rfl⟩

/-- Witness for the amended C8: merging `sampleSession` (a material) with
fresh id `"fresh-uuid"` publishes under the fresh id. -/
theorem mergeParts_material_fresh_path_witness :
    sampleSession.utype = .material ∧
    c8Res.finalPath =
      joinPath (joinPath (joinPath sampleCfg.materialsDir sampleSession.lessonID)
        "fresh-uuid") sampleSession.filename ∧
    c8Res.materialID = "fresh-uuid" := by
  refine ⟨rfl, ?_, ?_⟩
  · exact (mergeParts_material_fresh_path sampleCfg sampleState.disk "u1" sampleSession
      "fresh-uuid" c8Res rfl rfl).1
  · exact (mergeParts_material_fresh_path sampleCfg sampleState.disk "u1" sampleSession
      "fresh-uuid" c8Res rfl rfl).2

/-- C6: when the admission counter has reached `max_concurrent`, a video
init request (with an acceptable content type) is answered with status 429,
header `Retry-After: 60`, and the admission error message, and the state is
completely unchanged: no session inserted, no counter increment, no staging
directory created. -/
theorem InitVideoUpload_admission_reject (cfg : Config) (st : ServiceState)
    (req : InitUploadRequest) (freshID freshToken : String) (now : ℕ)
    (hfull : cfg.maxConcurrent ≤ st.activeConcurrent)
    (hct : req.contentType = "" ∨ req.contentType = "video/mp4") :
    InitVideoUpload cfg st req freshID freshToken now =
      (st, ⟨429, some "60", some "too many concurrent uploads, please retry later"⟩) := by
  have hcan : CanAcceptUpload cfg st = false := by
    simp only [CanAcceptUpload, decide_eq_false_iff_not, not_lt]
    exact hfull
  have hmp4 : ("video/mp4" : String) ≠ "" := by decide
  rcases hct with h | h
  · simp [InitVideoUpload, CreateSession, h, hcan]
  · by_cases h0 : req.contentType = ""
    · rw [h0] at h
      exact absurd h.symm hmp4
    · simp [InitVideoUpload, CreateSession, h, h0, hcan]

/-- Witness for C6: with `max_concurrent = 1` already taken, a third-party
video init is rejected with 429 / `Retry-After: 60` and no state change. -/
theorem InitVideoUpload_admission_reject_witness :
    InitVideoUpload fullCfg sampleState sampleVideoReq "u2" "tok2" 5 =
      (sampleState,
        ⟨429, some "60", some "too many concurrent uploads, please retry later"⟩) :=
  InitVideoUpload_admission_reject fullCfg sampleState sampleVideoReq "u2" "tok2" 5
    (by decide) (Or.inl rfl)

theorem mem_partIndices {i n : ℤ} : i ∈ partIndices n ↔ 1 ≤ i ∧ i ≤ n := by
  unfold partIndices
  rw [List.mem_map]
  constructor
  · rintro ⟨k, hk, rfl⟩
    rw [List.mem_range] at hk
    omega
  · intro h
    refine ⟨(i - 1).toNat, ?_, ?_⟩
    · rw [List.mem_range]
      omega
    · omega

theorem partIndices_pairwise (n : ℤ) : (partIndices n).Pairwise (· < ·) := by
  unfold partIndices
  refine List.pairwise_map.mpr ?_
  refine (List.pairwise_lt_range n.toNat).imp ?_
  intro a b h
  dsimp only
  omega

theorem find?_sorted_min (p : ℤ → Bool) :
    ∀ l : List ℤ, l.Pairwise (· < ·) → ∀ m, l.find? p = some m →
      ∀ j ∈ l, p j = true → m ≤ j := by
  intro l
  induction l with
  | nil =>
      intro _ m h
      cases h
  | cons a t ih =>
      intro hp m h j hj hpj
      rcases List.pairwise_cons.mp hp with ⟨ha, ht⟩
      cases hpa : p a with
      | true =>
          rw [List.find?_cons_of_pos _ hpa] at h
          injection h with h
          subst h
          rcases List.mem_cons.mp hj with rfl | hj'
          · exact le_refl _
          · exact le_of_lt (ha j hj')
      | false =>
          rw [List.find?_cons_of_neg _ (by simp [hpa])] at h
          rcases List.mem_cons.mp hj with rfl | hj'
          · rw [hpj] at hpa
            cases hpa
          · exact ih ht m h j hj' hpj

/-- C2: if some part in `1..total_parts` is missing, `MarkComplete` fails
with an error naming the smallest missing index and the state — session,
admission counter, disk — is completely unchanged; if all parts are
present it marks the session `uploaded` and decrements the admission
counter (which the code floors at zero). -/
theorem MarkComplete_spec (st : ServiceState) (uploadID : String) (s : UploadSession)
    (hs : assocFind st.sessions uploadID = some s) :
    ((∃ i, i ∈ partIndices s.totalParts ∧ i ∉ s.partsReceived) →
      ∃ m, m ∈ partIndices s.totalParts ∧ m ∉ s.partsReceived ∧
        (∀ j ∈ partIndices s.totalParts, j ∉ s.partsReceived → m ≤ j) ∧
        MarkComplete st uploadID = (st, .error s!"missing part {m}"))
    ∧ ((∀ i ∈ partIndices s.totalParts, i ∈ s.partsReceived) →
      (MarkComplete st uploadID).2 = .ok () ∧
      assocFind (MarkComplete st uploadID).1.sessions uploadID =
        some { s with status := .uploaded } ∧
      (MarkComplete st uploadID).1.activeConcurrent =
        (if st.activeConcurrent > 0 then st.activeConcurrent - 1
         else st.activeConcurrent) ∧
      (MarkComplete st uploadID).1.disk = st.disk) := by
  constructor
  · rintro ⟨i, him, hin⟩
    have hsome : (firstMissing s.partsReceived s.totalParts).isSome := by
      unfold firstMissing
      rw [List.find?_isSome]
      exact ⟨i, him, by simpa using hin⟩
    obtain ⟨m, hm⟩ := Option.isSome_iff_exists.mp hsome
    have hm' : (partIndices s.totalParts).find?
        (fun i => decide (i ∉ s.partsReceived)) = some m := hm
    have hmem : m ∈ partIndices s.totalParts := List.mem_of_find?_eq_some hm'
    have hmp : m ∉ s.partsReceived := by simpa using List.find?_some hm'
    refine ⟨m, hmem, hmp, ?_, ?_⟩
    · intro j hj hnj
      exact find?_sorted_min _ _ (partIndices_pairwise s.totalParts) m hm' j hj
        (by simpa using hnj)
    · unfold MarkComplete
      rw [hs]
      dsimp only
      rw [hm]
  · intro hall
    have hnone : firstMissing s.partsReceived s.totalParts = none := by
      unfold firstMissing
      rw [List.find?_eq_none]
      intro x hx
      simpa using hall x hx
    refine ⟨?_, ?_, ?_, ?_⟩
    · unfold MarkComplete
      rw [hs]
      dsimp only
      rw [hnone]
    · unfold MarkComplete
      rw [hs]
      dsimp only
      rw [hnone]
      dsimp only
      rw [decrementActive_sessions, assocFind_update_self, hs]
      rfl
    · unfold MarkComplete
      rw [hs]
      dsimp only
      rw [hnone]
      dsimp only
      rw [decrementActive_active]
    · unfold MarkComplete
      rw [hs]
      dsimp only
      rw [hnone]
      dsimp only
      rw [decrementActive_disk]

/-- Witness for C2: `missState` (parts `[1]` of 2 received) is rejected at
part 2 without mutation, and `sampleState` (all parts received) is marked
uploaded. -/
theorem MarkComplete_spec_witness :
    (∃ m, m ∈ partIndices missSession.totalParts ∧ m ∉ missSession.partsReceived ∧
      (∀ j ∈ partIndices missSession.totalParts, j ∉ missSession.partsReceived → m ≤ j) ∧
      MarkComplete missState "u1" = (missState, .error s!"missing part {m}")) ∧
    (MarkComplete sampleState "u1").2 = .ok () ∧
    assocFind (MarkComplete sampleState "u1").1.sessions "u1" =
      some { sampleSession with status := .uploaded } :=
  ⟨(MarkComplete_spec missState "u1" missSession rfl).1 ⟨2, by decide, by decide⟩,
   ((MarkComplete_spec sampleState "u1" sampleSession rfl).2 (by decide)).1,
   ((MarkComplete_spec sampleState "u1" sampleSession rfl).2 (by decide)).2.1⟩

/-- C4 counterexample: `sampleSession` has `total_parts = 1`, yet a PUT for
part 2 is accepted with 204, its bytes are persisted, and index 2 is added
to `parts_received` — the upper bound `part_num ≤ total_parts` is not
enforced, so `parts_received ⊆ {1..total_parts}` fails. -/
theorem UploadPart_no_upper_bound_cex :
    (UploadPart sampleState "u1" 2 "secret-token" [7, 8]).2.status = 204 ∧
    ((assocFind (UploadPart sampleState "u1" 2 "secret-token" [7, 8]).1.sessions "u1").map
      fun s => s.partsReceived) = some [1, 2] ∧
    diskGet (UploadPart sampleState "u1" 2 "secret-token" [7, 8]).1.disk ("u1", 2) =
      some [7, 8] ∧
    sampleSession.totalParts = 1 :=
  ⟨rfl, rfl, rfl, rfl⟩

theorem assocFind_mem {α β : Type} [DecidableEq α] {l : List (α × β)} {key : α} {v : β}
    (h : assocFind l key = some v) : (key, v) ∈ l := by
  induction l with
  | nil => cases h
  | cons p rest ih =>
      obtain ⟨k, w⟩ := p
      by_cases hk : k = key
      · subst hk
        rw [assocFind, if_pos rfl] at h
        injection h with h
        subst h
        exact List.mem_cons_self _ _
      · rw [assocFind, if_neg hk] at h
        exact List.mem_cons_of_mem _ (ih h)

theorem mem_assocUpdate {α β : Type} [DecidableEq α] {l : List (α × β)} {key : α}
    {f : β → β} {p : α × β} (hp : p ∈ assocUpdate l key f) :
    ∃ q ∈ l, p = q ∨ p = (q.1, f q.2) := by
  induction l with
  | nil => cases hp
  | cons q rest ih =>
      obtain ⟨k, v⟩ := q
      rw [assocUpdate] at hp
      by_cases hk : k = key
      · rw [if_pos hk] at hp
        rcases List.mem_cons.mp hp with rfl | hp'
        · exact ⟨(k, v), List.mem_cons_self _ _, Or.inr rfl⟩
        · obtain ⟨q, hq, hor⟩ := ih hp'
          exact ⟨q, List.mem_cons_of_mem _ hq, hor⟩
      · rw [if_neg hk] at hp
        rcases List.mem_cons.mp hp with rfl | hp'
        · exact ⟨(k, v), List.mem_cons_self _ _, Or.inl rfl⟩
        · obtain ⟨q, hq, hor⟩ := ih hp'
          exact ⟨q, List.mem_cons_of_mem _ hq, hor⟩


theorem partsLowerBoundInv_congr {s1 s2 : ServiceState} (h : s1.sessions = s2.sessions)
    (hinv : partsLowerBoundInv s2) : partsLowerBoundInv s1 := by
  intro p hp
  exact hinv p (h ▸ hp)

theorem inv_assocUpdate {st : ServiceState} (uploadID : String)
    (f : UploadSession → UploadSession)
    (hf : ∀ s, (f s).partsReceived = s.partsReceived)
    (hinv : partsLowerBoundInv st) :
    ∀ p ∈ assocUpdate st.sessions uploadID f, ∀ i ∈ p.2.partsReceived, 1 ≤ i := by
  intro p hp i hi
  obtain ⟨q, hq, hor⟩ := mem_assocUpdate hp
  rcases hor with h | h
  · rw [h] at hi
    exact hinv q hq i hi
  · rw [h] at hi
    dsimp only at hi
    rw [hf] at hi
    exact hinv q hq i hi

theorem inv_updateStatus (st : ServiceState) (uploadID : String) (status : UploadStatus)
    (msg : String) (now : ℕ) (hinv : partsLowerBoundInv st) :
    partsLowerBoundInv (UpdateStatus st uploadID status msg now) := by
  unfold UpdateStatus
  cases h : assocFind st.sessions uploadID with
  | none => exact hinv
  | some s =>
      dsimp only
      refine inv_assocUpdate uploadID _ ?_ hinv
      intro s'
      dsimp only
      split_ifs <;> rfl

theorem inv_setOutputPath (st : ServiceState) (uploadID path : String)
    (hinv : partsLowerBoundInv st) :
    partsLowerBoundInv (SetOutputPath st uploadID path) := by
  unfold SetOutputPath
  cases h : assocFind st.sessions uploadID with
  | none => exact hinv
  | some s =>
      dsimp only
      exact inv_assocUpdate uploadID _ (fun _ => rfl) hinv

theorem inv_savePart (st : ServiceState) (uploadID : String) (partNum : ℤ) (data : Bytes)
    (hinv : partsLowerBoundInv st) (hp : 1 ≤ partNum) :
    partsLowerBoundInv (SavePart st uploadID partNum data).1 := by
  unfold SavePart
  dsimp only
  cases h : assocFind st.sessions uploadID with
  | none => exact hinv
  | some session =>
      dsimp only
      split
      · exact hinv
      · intro p hpmem i hi
        obtain ⟨q, hq, hor⟩ := mem_assocUpdate hpmem
        rcases hor with h' | h'
        · rw [h'] at hi
          exact hinv q hq i hi
        · rw [h'] at hi
          dsimp only at hi
          rcases List.mem_append.mp hi with hi' | hi'
          · exact hinv (uploadID, session) (assocFind_mem h) i hi'
          · rw [List.mem_singleton.mp hi']
            exact hp

theorem inv_markComplete (st : ServiceState) (uploadID : String)
    (hinv : partsLowerBoundInv st) :
    partsLowerBoundInv (MarkComplete st uploadID).1 := by
  unfold MarkComplete
  cases h : assocFind st.sessions uploadID with
  | none => exact hinv
  | some session =>
      dsimp only
      cases hfm : firstMissing session.partsReceived session.totalParts with
      | some i => exact hinv
      | none =>
          dsimp only
          refine partsLowerBoundInv_congr (decrementActive_sessions _) ?_
          exact inv_assocUpdate uploadID _ (fun _ => rfl) hinv

theorem inv_createSession (cfg : Config) (st : ServiceState) (req : InitUploadRequest)
    (utype : UploadType) (freshID freshToken : String) (now : ℕ)
    (hinv : partsLowerBoundInv st) :
    partsLowerBoundInv (CreateSession cfg st req utype freshID freshToken now).1 := by
  unfold CreateSession
  split
  · exact hinv
  · intro p hp i hi
    rcases List.mem_cons.mp hp with rfl | hp'
    · cases hi
    · exact hinv p hp' i hi

theorem inv_processMerge (cfg : Config) (st : ServiceState) (job : MergeJob)
    (fresh : String) (now : ℕ) (hinv : partsLowerBoundInv st) :
    partsLowerBoundInv (processMerge cfg st job fresh now) := by
  unfold processMerge
  dsimp only
  split
  · exact inv_updateStatus _ _ _ _ _ (inv_updateStatus _ _ _ _ _ hinv)
  · refine partsLowerBoundInv_congr (rfl : _ = (UpdateStatus _ job.uploadID .ready "" now).sessions) ?_
    refine inv_updateStatus _ _ .ready "" now ?_
    refine inv_setOutputPath _ job.uploadID _ ?_
    refine partsLowerBoundInv_congr (rfl : _ = (UpdateStatus st job.uploadID .merging "" now).sessions) ?_
    exact inv_updateStatus _ _ _ _ _ hinv

theorem initVideoUpload_state (cfg : Config) (st : ServiceState) (req : InitUploadRequest)
    (freshID freshToken : String) (now : ℕ) :
    (InitVideoUpload cfg st req freshID freshToken now).1 = st ∨
    ∃ req', (InitVideoUpload cfg st req freshID freshToken now).1 =
      (CreateSession cfg st req' .video freshID freshToken now).1 := by
  unfold InitVideoUpload
  set req₁ := if req.contentType = "" then { req with contentType := "video/mp4" } else req
    with hreq
  dsimp only
  split
  · left
    rfl
  · right
    refine ⟨req₁, ?_⟩
    rcases h : CreateSession cfg st req₁ .video freshID freshToken now with ⟨st', r⟩
    cases r with
    | error e =>
        dsimp only
        split <;> rfl
    | ok s => rfl

theorem initFileUpload_state (cfg : Config) (st : ServiceState) (req : InitUploadRequest)
    (freshID freshToken : String) (now : ℕ) :
    (InitFileUpload cfg st req freshID freshToken now).1 = st ∨
    ∃ req', (InitFileUpload cfg st req freshID freshToken now).1 =
      (CreateSession cfg st req' .material freshID freshToken now).1 := by
  unfold InitFileUpload
  dsimp only
  split
  · left
    rfl
  · right
    refine ⟨if req.contentType = "" then { req with contentType := "application/octet-stream" }
      else req, ?_⟩
    rcases h : CreateSession cfg st
      (if req.contentType = "" then { req with contentType := "application/octet-stream" }
        else req) .material freshID freshToken now with ⟨st', r⟩
    cases r with
    | error e =>
        dsimp only
        split <;> rfl
    | ok s => rfl

theorem uploadPart_state (st : ServiceState) (uploadID : String) (partNum : ℤ)
    (token : String) (body : Bytes) :
    (UploadPart st uploadID partNum token body).1 = st ∨
    (1 ≤ partNum ∧ (UploadPart st uploadID partNum token body).1 =
      (SavePart st uploadID partNum body).1) := by
  unfold UploadPart
  split
  · left
    rfl
  · next hlt =>
    split
    · left
      rfl
    · split
      · left
        rfl
      · rcases h : SavePart st uploadID partNum body with ⟨st', r⟩
        right
        refine ⟨by omega, ?_⟩
        cases r <;> rfl

theorem completeUpload_sessions (st : ServiceState) (uploadID token : String) :
    (CompleteUpload st uploadID token).1.sessions = st.sessions ∨
    (CompleteUpload st uploadID token).1.sessions = (MarkComplete st uploadID).1.sessions := by
  unfold CompleteUpload
  split
  · left
    rfl
  · split
    · left
      rfl
    · rcases h : MarkComplete st uploadID with ⟨st', r⟩
      cases r with
      | error e =>
          right
          rfl
      | ok u =>
          right
          dsimp only
          split <;> rfl

theorem inv_handlerStep (cfg : Config) (st : ServiceState) (op : HandlerOp)
    (hinv : partsLowerBoundInv st) : partsLowerBoundInv (handlerStep cfg st op) := by
  cases op with
  | initVideo req freshID freshToken now =>
      show partsLowerBoundInv (InitVideoUpload cfg st req freshID freshToken now).1
      rcases initVideoUpload_state cfg st req freshID freshToken now with h | ⟨req', h⟩ <;>
        rw [h]
      · exact hinv
      · exact inv_createSession cfg st req' .video freshID freshToken now hinv
  | initFile req freshID freshToken now =>
      show partsLowerBoundInv (InitFileUpload cfg st req freshID freshToken now).1
      rcases initFileUpload_state cfg st req freshID freshToken now with h | ⟨req', h⟩ <;>
        rw [h]
      · exact hinv
      · exact inv_createSession cfg st req' .material freshID freshToken now hinv
  | uploadPart uploadID partNum token body =>
      show partsLowerBoundInv (UploadPart st uploadID partNum token body).1
      rcases uploadPart_state st uploadID partNum token body with h | ⟨hp, h⟩ <;> rw [h]
      · exact hinv
      · exact inv_savePart st uploadID partNum body hinv hp
  | complete uploadID token =>
      show partsLowerBoundInv (CompleteUpload st uploadID token).1
      rcases completeUpload_sessions st uploadID token with h | h
      · exact partsLowerBoundInv_congr h hinv
      · exact partsLowerBoundInv_congr h (inv_markComplete st uploadID hinv)
  | merge job fresh now =>
      exact inv_processMerge cfg st job fresh now hinv

/-- C4 (amended): only the lower bound on part numbers is enforced — a PUT
with `part_num < 1` is rejected with 400 and no state change, but no upper
bound against `total_parts` is checked; consequently the invariant that
survives every operation sequence is only `parts_received ⊆ {i | 1 ≤ i}`,
not `parts_received ⊆ {1..total_parts}`. -/
theorem UploadPart_lower_bound_only :
    (∀ (st : ServiceState) (uploadID : String) (partNum : ℤ) (token : String)
        (body : Bytes), partNum < 1 →
        UploadPart st uploadID partNum token body =
          (st, ⟨400, none, some "invalid part number"⟩))
    ∧ (∀ (cfg : Config) (st : ServiceState) (ops : List HandlerOp),
        partsLowerBoundInv st → partsLowerBoundInv (handlerRun cfg st ops)) := by
  constructor
  · intro st uploadID partNum token body h
    unfold UploadPart
    rw [if_pos h]
  · intro cfg st ops hinv
    induction ops generalizing st with
    | nil => exact hinv
    | cons op rest ih => exact ih _ (inv_handlerStep cfg st op hinv)

/-- Witness for the amended C4: part number 0 is rejected without state
change, and the lower-bound invariant survives a concrete operation
sequence (an out-of-range part 2 upload followed by complete). -/
theorem UploadPart_lower_bound_only_witness :
    UploadPart sampleState "u1" 0 "secret-token" [1] =
      (sampleState, ⟨400, none, some "invalid part number"⟩) ∧
    partsLowerBoundInv
      (handlerRun sampleCfg sampleState
        [.uploadPart "u1" 2 "secret-token" [7, 8], .complete "u1" "secret-token"]) :=
  ⟨UploadPart_lower_bound_only.1 sampleState "u1" 0 "secret-token" [1] (by decide),
   UploadPart_lower_bound_only.2 sampleCfg sampleState
     [.uploadPart "u1" 2 "secret-token" [7, 8], .complete "u1" "secret-token"]
     (by
       intro p hp i hi
       rcases List.mem_singleton.mp hp with rfl
       rcases List.mem_singleton.mp hi with rfl
       decide)⟩

theorem savePart_disk (st : ServiceState) (uploadID : String) (partNum : ℤ) (data : Bytes) :
    (SavePart st uploadID partNum data).1.disk =
      assocSet st.disk (uploadID, partNum) data := by
  unfold SavePart
  dsimp only
  cases h : assocFind st.sessions uploadID with
  | none => rfl
  | some s =>
      dsimp only
      split <;> rfl

theorem diskAfterArrivals_disk (uploadID : String) (arrivals : List (ℤ × Bytes)) :
    ∀ st : ServiceState, (diskAfterArrivals st uploadID arrivals).disk =
      arrivals.foldl (fun d p => assocSet d (uploadID, p.1) p.2) st.disk := by
  induction arrivals with
  | nil => intro st; rfl
  | cons a rest ih =>
      intro st
      unfold diskAfterArrivals
      rw [List.foldl_cons, List.foldl_cons]
      have := ih ((SavePart st uploadID a.1 a.2).1)
      unfold diskAfterArrivals at this
      rw [this, savePart_disk]

theorem assocFind_foldl_congr (uploadID : String) (l : List (ℤ × Bytes)) :
    ∀ d₁ d₂ : List ((String × ℤ) × Bytes),
      (∀ k, assocFind d₁ k = assocFind d₂ k) →
      ∀ k, assocFind (l.foldl (fun d p => assocSet d (uploadID, p.1) p.2) d₁) k =
           assocFind (l.foldl (fun d p => assocSet d (uploadID, p.1) p.2) d₂) k := by
  induction l with
  | nil => intro d₁ d₂ h; exact h
  | cons a rest ih =>
      intro d₁ d₂ h k
      rw [List.foldl_cons, List.foldl_cons]
      refine ih _ _ ?_ k
      intro k'
      show (if (uploadID, a.1) = k' then some a.2 else assocFind d₁ k') =
        (if (uploadID, a.1) = k' then some a.2 else assocFind d₂ k')
      by_cases hk : (uploadID, a.1) = k'
      · rw [if_pos hk, if_pos hk]
      · rw [if_neg hk, if_neg hk]
        exact h k'

theorem assocFind_foldl_set_perm (uploadID : String) {l₁ l₂ : List (ℤ × Bytes)}
    (hperm : l₁.Perm l₂) :
    (l₁.map Prod.fst).Nodup →
    ∀ (d : List ((String × ℤ) × Bytes)) (k : String × ℤ),
      assocFind (l₁.foldl (fun d p => assocSet d (uploadID, p.1) p.2) d) k =
      assocFind (l₂.foldl (fun d p => assocSet d (uploadID, p.1) p.2) d) k := by
  induction hperm with
  | nil =>
      intro _ d k
      rfl
  | cons x hp ih =>
      intro hnd d k
      rw [List.foldl_cons, List.foldl_cons]
      refine ih ?_ _ k
      rw [List.map_cons, List.nodup_cons] at hnd
      exact hnd.2
  | swap x y l =>
      intro hnd d k
      rw [List.foldl_cons, List.foldl_cons, List.foldl_cons, List.foldl_cons]
      have hxy : y.1 ≠ x.1 := by
        rw [List.map_cons, List.map_cons, List.nodup_cons] at hnd
        exact fun h => hnd.1 (h ▸ List.mem_cons_self _ _)
      refine assocFind_foldl_congr uploadID l _ _ ?_ k
      intro k'
      show (if (uploadID, x.1) = k' then some x.2
            else if (uploadID, y.1) = k' then some y.2 else assocFind d k') =
        (if (uploadID, y.1) = k' then some y.2
          else if (uploadID, x.1) = k' then some x.2 else assocFind d k')
      by_cases h1 : (uploadID, x.1) = k'
      · by_cases h2 : (uploadID, y.1) = k'
        · exact absurd (by rw [← h2] at h1; exact (Prod.mk.injEq _ _ _ _).mp h1.symm |>.2) hxy
        · rw [if_pos h1, if_neg h2, if_pos h1]
      · by_cases h2 : (uploadID, y.1) = k'
        · rw [if_neg h1, if_pos h2, if_pos h2]
        · rw [if_neg h1, if_neg h2, if_neg h2, if_neg h1]
  | trans h₁ h₂ ih₁ ih₂ =>
      intro hnd d k
      have hnd₂ := ((h₁.map Prod.fst).nodup_iff).mp hnd
      exact (ih₁ hnd d k).trans (ih₂ hnd₂ d k)

theorem mergeLoop_congr (uploadID : String) (d₁ d₂ : List ((String × ℤ) × Bytes))
    (h : ∀ k, diskGet d₁ k = diskGet d₂ k) :
    ∀ (idxs : List ℤ) (acc : Bytes × Bytes),
      mergeLoop d₁ uploadID idxs acc = mergeLoop d₂ uploadID idxs acc := by
  intro idxs
  induction idxs with
  | nil =>
      intro acc
      rfl
  | cons i rest ih =>
      intro acc
      unfold mergeLoop
      rw [h (uploadID, i)]
      cases diskGet d₂ (uploadID, i) with
      | none => rfl
      | some b => exact ih _

theorem mergeParts_congr (cfg : Config) (uploadID : String) (session : UploadSession)
    (fresh : String) (d₁ d₂ : List ((String × ℤ) × Bytes))
    (h : ∀ k, diskGet d₁ k = diskGet d₂ k) :
    mergeParts cfg d₁ uploadID session fresh = mergeParts cfg d₂ uploadID session fresh := by
  unfold mergeParts
  rw [mergeLoop_congr uploadID d₁ d₂ h]

theorem mergeLoop_all (disk : List ((String × ℤ) × Bytes)) (uploadID : String)
    (parts : ℤ → Bytes) :
    ∀ idxs : List ℤ, (∀ i ∈ idxs, diskGet disk (uploadID, i) = some (parts i)) →
      ∀ acc : Bytes × Bytes,
        mergeLoop disk uploadID idxs acc =
          .ok (acc.1 ++ (idxs.map parts).flatten, acc.2 ++ (idxs.map parts).flatten) := by
  intro idxs
  induction idxs with
  | nil =>
      intro _ acc
      simp [mergeLoop]
  | cons i rest ih =>
      intro hall acc
      unfold mergeLoop
      rw [hall i (List.mem_cons_self _ _)]
      dsimp only
      rw [ih (fun j hj => hall j (List.mem_cons_of_mem _ hj))]
      simp [List.append_assoc]

/-- C1: when every part `1..total_parts` is staged, the merge succeeds, the
published file is exactly the concatenation of the parts in index order,
and the reported hash is the hex-encoded SHA-1 of those bytes; moreover,
for any two part-arrival orders that are permutations of each other (with
distinct part numbers), the merge result — in particular the published
bytes — is identical. -/
theorem mergeParts_concat_hash_perm (cfg : Config) (uploadID : String)
    (session : UploadSession) (fresh : String) (disk : List ((String × ℤ) × Bytes))
    (parts : ℤ → Bytes)
    (hall : ∀ i ∈ partIndices session.totalParts,
      diskGet disk (uploadID, i) = some (parts i)) :
    (∃ res, mergeParts cfg disk uploadID session fresh = .ok res ∧
      res.fileBytes = concatParts session.totalParts parts ∧
      res.hashHex = hexEncode (sha1 (concatParts session.totalParts parts)))
    ∧ (∀ (st : ServiceState) (l₁ l₂ : List (ℤ × Bytes)), l₁.Perm l₂ →
        (l₁.map Prod.fst).Nodup →
        mergeParts cfg (diskAfterArrivals st uploadID l₁).disk uploadID session fresh =
        mergeParts cfg (diskAfterArrivals st uploadID l₂).disk uploadID session fresh) := by
  constructor
  · unfold mergeParts
    rw [mergeLoop_all disk uploadID parts _ hall ([], [])]
    dsimp only
    split
    · exact ⟨_, rfl, by simp [concatParts], by simp [concatParts]⟩
    · exact ⟨_, rfl, by simp [concatParts], by simp [concatParts]⟩
  · intro st l₁ l₂ hperm hnodup
    refine mergeParts_congr cfg uploadID session fresh _ _ ?_
    intro k
    rw [diskAfterArrivals_disk, diskAfterArrivals_disk]
    exact assocFind_foldl_set_perm uploadID hperm hnodup st.disk k

/-- Witness for C1 at `sampleState`: part 1 of 1 is staged as `[10, 20]`,
so the merge publishes that byte string with its SHA-1. -/
theorem mergeParts_concat_hash_perm_witness :
    (∃ res, mergeParts sampleCfg sampleState.disk "u1" sampleSession "fresh-uuid" =
        .ok res ∧
      res.fileBytes =
        concatParts sampleSession.totalParts (fun i => if i = 1 then [10, 20] else []) ∧
      res.hashHex = hexEncode (sha1 (concatParts sampleSession.totalParts
        (fun i => if i = 1 then [10, 20] else [])))) ∧
    (∀ (st : ServiceState) (l₁ l₂ : List (ℤ × Bytes)), l₁.Perm l₂ →
        (l₁.map Prod.fst).Nodup →
        mergeParts sampleCfg (diskAfterArrivals st "u1" l₁).disk "u1" sampleSession
            "fresh-uuid" =
        mergeParts sampleCfg (diskAfterArrivals st "u1" l₂).disk "u1" sampleSession
            "fresh-uuid") :=
  mergeParts_concat_hash_perm sampleCfg "u1" sampleSession "fresh-uuid" sampleState.disk
    (fun i => if i = 1 then [10, 20] else []) (by decide)

theorem int_log_eq_of (e : ℤ) (q : ℚ) (h1 : (2 : ℚ) ^ e ≤ q) (h2 : q < (2 : ℚ) ^ (e + 1)) :
    Int.log 2 q = e := by
  have hq : 0 < q := lt_of_lt_of_le (by positivity) h1
  have hle : e ≤ Int.log 2 q := by
    rw [← Int.zpow_le_iff_le_log (by norm_num) hq]
    exact_mod_cast h1
  have hlt : Int.log 2 q < e + 1 := by
    rw [← Int.lt_zpow_iff_log_lt (by norm_num) hq]
    exact_mod_cast h2
  omega

theorem roundEven_intCast (n : ℤ) : roundEven (n : ℚ) = n := by
  unfold roundEven
  rw [Int.floor_intCast]
  norm_num

theorem float64_of_pos (q : ℚ) (hq : 0 < q) : float64 q = rnd53pos q := by
  unfold float64
  rw [if_neg (not_lt.mpr hq.le), if_neg (ne_of_gt hq)]

theorem rnd53pos_fixed (m : ℕ) (j : ℤ) (hm1 : 2 ^ 52 ≤ m) (hm2 : m < 2 ^ 53) :
    rnd53pos ((m : ℚ) * 2 ^ j) = (m : ℚ) * 2 ^ j := by
  have hlow : (2 : ℚ) ^ (52 + j) ≤ (m : ℚ) * 2 ^ j := by
    rw [zpow_add₀ (two_ne_zero)]
    refine mul_le_mul_of_nonneg_right ?_ (zpow_pos (by norm_num) j).le
    rw [show ((52 : ℤ)) = ((52 : ℕ) : ℤ) from rfl, zpow_natCast]
    exact_mod_cast hm1
  have hhigh : (m : ℚ) * 2 ^ j < (2 : ℚ) ^ (52 + j + 1) := by
    rw [show (52 + j + 1 : ℤ) = 53 + j by ring, zpow_add₀ (two_ne_zero)]
    refine mul_lt_mul_of_pos_right ?_ (zpow_pos (by norm_num) j)
    rw [show ((53 : ℤ)) = ((53 : ℕ) : ℤ) from rfl, zpow_natCast]
    exact_mod_cast hm2
  have he : Int.log 2 ((m : ℚ) * 2 ^ j) = 52 + j := int_log_eq_of _ _ hlow hhigh
  unfold rnd53pos
  rw [he]
  dsimp only
  rw [show (52 : ℤ) - (52 + j) = -j by ring, show (52 + j) - 52 = j by ring]
  have hmul : (m : ℚ) * 2 ^ j * 2 ^ (-j) = (m : ℚ) := by
    rw [mul_assoc, ← zpow_add₀ (two_ne_zero)]
    simp
  rw [hmul, show ((m : ℚ)) = ((m : ℤ) : ℚ) by push_cast; ring, roundEven_intCast]

theorem float64_fixed_aux :
    ∀ n m : ℕ, 2 ^ 53 - m = n → 0 < m → m ≤ 2 ^ 53 →
      ∀ j : ℤ, float64 ((m : ℚ) * 2 ^ j) = (m : ℚ) * 2 ^ j := by
  intro n
  induction n using Nat.strong_induction_on with
  | _ n ih =>
      intro m hn h0 h53 j
      have hqpos : (0 : ℚ) < (m : ℚ) * 2 ^ j := by positivity
      by_cases h52 : 2 ^ 52 ≤ m
      · by_cases hm53 : m < 2 ^ 53
        · rw [float64_of_pos _ hqpos]
          exact rnd53pos_fixed m j h52 hm53
        · have hm : m = 2 ^ 53 := by omega
          subst hm
          have hsplit : ((2 ^ 53 : ℕ) : ℚ) * 2 ^ j = ((2 ^ 52 : ℕ) : ℚ) * 2 ^ (j + 1) := by
            rw [zpow_add₀ (two_ne_zero), zpow_one]
            push_cast
            ring
          rw [hsplit, float64_of_pos _ (by positivity)]
          exact rnd53pos_fixed (2 ^ 52) (j + 1) le_rfl (by norm_num)
      · have hsplit : ((2 * m : ℕ) : ℚ) * 2 ^ (j - 1) = (m : ℚ) * 2 ^ j := by
          rw [zpow_sub₀ (two_ne_zero), zpow_one]
          push_cast
          ring
        rw [← hsplit]
        exact ih (2 ^ 53 - 2 * m) (by omega) (2 * m) rfl (by omega) (by omega) (j - 1)

theorem float64_fixed (m : ℕ) (h0 : 0 < m) (h53 : m ≤ 2 ^ 53) (j : ℤ) :
    float64 ((m : ℚ) * 2 ^ j) = (m : ℚ) * 2 ^ j :=
  float64_fixed_aux (2 ^ 53 - m) m rfl h0 h53 j

/-- C9 (amended): the `float64` computation of `total_parts` agrees with
the exact integer ceiling whenever `expected_size ≤ 2^53` and the chunk
size is a power of two (as the default 16 MiB is); beyond `2^53` the
conversion of `expected_size` to `float64` rounds and the computed value
can differ from the exact ceiling. -/
theorem totalPartsGo_exact (size : ℤ) (k : ℕ) (h1 : 0 < size) (h2 : size ≤ 2 ^ 53) :
    totalPartsGo size (2 ^ k) = ⌈(size : ℚ) / (2 : ℚ) ^ k⌉ := by
  unfold totalPartsGo
  obtain ⟨m, rfl⟩ : ∃ m : ℕ, size = (m : ℤ) :=
    ⟨size.toNat, (Int.toNat_of_nonneg h1.le).symm⟩
  have h0 : 0 < m := by exact_mod_cast h1
  have h53 : m ≤ 2 ^ 53 := by exact_mod_cast h2
  have hsize : float64 ((m : ℤ) : ℚ) = ((m : ℤ) : ℚ) := by
    have hf := float64_fixed m h0 h53 0
    rw [zpow_zero, mul_one] at hf
    rw [show (((m : ℤ) : ℚ)) = ((m : ℕ) : ℚ) by push_cast; ring]
    exact hf
  have hchunkval : (((2 : ℤ) ^ k : ℤ) : ℚ) = ((2 ^ 52 : ℕ) : ℚ) * (2 : ℚ) ^ ((k : ℤ) - 52) := by
    rw [zpow_sub₀ (two_ne_zero), show ((k : ℤ)) = ((k : ℕ) : ℤ) from rfl, zpow_natCast,
      show ((52 : ℤ)) = ((52 : ℕ) : ℤ) from rfl, zpow_natCast]
    push_cast
    field_simp
    ring_nf
  have hchunk : float64 (((2 : ℤ) ^ k : ℤ) : ℚ) = (((2 : ℤ) ^ k : ℤ) : ℚ) := by
    rw [hchunkval]
    exact float64_fixed (2 ^ 52) (by positivity) (by norm_num) ((k : ℤ) - 52)
  rw [hsize, hchunk]
  have hqval : ((m : ℤ) : ℚ) / (((2 : ℤ) ^ k : ℤ) : ℚ) = (m : ℚ) * (2 : ℚ) ^ (-(k : ℤ)) := by
    rw [zpow_neg, show ((k : ℤ)) = ((k : ℕ) : ℤ) from rfl, zpow_natCast]
    push_cast
    rw [div_eq_mul_inv]
  rw [hqval, float64_fixed m h0 h53 (-(k : ℤ))]
  congr 1
  rw [zpow_neg, show ((k : ℤ)) = ((k : ℕ) : ℤ) from rfl, zpow_natCast]
  push_cast
  rw [div_eq_mul_inv]

/-- Witness for the amended C9: a 48 MiB upload with the default 16 MiB
chunk size yields exactly `⌈48 MiB / 16 MiB⌉`. -/
theorem totalPartsGo_exact_witness :
    totalPartsGo 50331648 (2 ^ 24) = ⌈(50331648 : ℚ) / (2 : ℚ) ^ 24⌉ :=
  totalPartsGo_exact 50331648 24 (by norm_num) (by norm_num)

/-- C9 counterexample: for `expected_size = 2^53 + 1` (representable in 64
bits) and the default `chunk_size = 16777216 = 2^24`, the code computes
`2^29 = 536870912` parts (the float64 conversion rounds `2^53 + 1` down to
`2^53`), while the exact ceiling is `2^29 + 1 = 536870913`. -/
theorem totalPartsGo_float_cex :
    totalPartsGo (2 ^ 53 + 1) 16777216 = 536870912 ∧
    ⌈((2 ^ 53 + 1 : ℤ) : ℚ) / ((16777216 : ℤ) : ℚ)⌉ = 536870913 ∧
    (536870912 : ℤ) ≠ 536870913 := by
  refine ⟨?_, ?_, by decide⟩
  · unfold totalPartsGo
    have ha : float64 ((2 ^ 53 + 1 : ℤ) : ℚ) = ((2 ^ 53 : ℕ) : ℚ) := by
      have hqpos : (0 : ℚ) < ((2 ^ 53 + 1 : ℤ) : ℚ) := by
        push_cast
        positivity
      rw [float64_of_pos _ hqpos]
      unfold rnd53pos
      have he : Int.log 2 (((2 ^ 53 + 1 : ℤ)) : ℚ) = 53 := by
        apply int_log_eq_of
        · rw [show ((53 : ℤ)) = ((53 : ℕ) : ℤ) from rfl, zpow_natCast]
          push_cast
          norm_num
        · rw [show ((53 : ℤ) + 1) = ((54 : ℕ) : ℤ) by norm_num, zpow_natCast]
          push_cast
          norm_num
      rw [he]
      dsimp only
      rw [show ((52 : ℤ) - 53) = (-1 : ℤ) by norm_num,
        show ((53 : ℤ) - 52) = (1 : ℤ) by norm_num]
      have hq2 : ((2 ^ 53 + 1 : ℤ) : ℚ) * (2 : ℚ) ^ (-1 : ℤ) = ((2 ^ 52 : ℤ) : ℚ) + 1 / 2 := by
        rw [zpow_neg, zpow_one]
        push_cast
        ring
      rw [hq2]
      have hf : ⌊((2 ^ 52 : ℤ) : ℚ) + 1 / 2⌋ = 2 ^ 52 := by
        rw [add_comm, Int.floor_add_int]
        norm_num
      have hre : roundEven (((2 ^ 52 : ℤ) : ℚ) + 1 / 2) = 2 ^ 52 := by
        unfold roundEven
        rw [hf]
        norm_num
      rw [hre, zpow_one]
      push_cast
      ring
    have hb : float64 ((16777216 : ℤ) : ℚ) = ((16777216 : ℤ) : ℚ) := by
      have hfix := float64_fixed 16777216 (by norm_num) (by norm_num) 0
      rw [zpow_zero, mul_one] at hfix
      rw [show (((16777216 : ℤ)) : ℚ) = ((16777216 : ℕ) : ℚ) by push_cast; ring]
      exact hfix
    rw [ha, hb]
    have hq : ((2 ^ 53 : ℕ) : ℚ) / ((16777216 : ℤ) : ℚ) = ((2 ^ 29 : ℕ) : ℚ) * (2 : ℚ) ^ (0 : ℤ) := by
      rw [zpow_zero, mul_one]
      push_cast
      norm_num
    rw [hq, float64_fixed (2 ^ 29) (by norm_num) (by norm_num) 0, zpow_zero, mul_one]
    rw [show ((2 ^ 29 : ℕ) : ℚ) = ((536870912 : ℤ) : ℚ) by push_cast; norm_num]
    exact Int.ceil_intCast _
  · rw [Int.ceil_eq_iff]
    constructor
    · push_cast
      norm_num
    · push_cast
      norm_num
